import Mathlib

/-!
Verification development for the econext / ecoNET-Next Home Assistant
integration.  The definitions below are shallow embeddings of the Python
source files:

* `custom_components/econext/coordinator.py` and
  `custom_components/econet_next/coordinator.py` (parameter store),
* `custom_components/econet_next/switch.py` (bit-flag switches),
* `sensor.py` / `custom_components/econext/sensor.py`
  (`decode_schedule_bitfield`),
* `number.py` and `custom_components/econet_next/number.py`
  (range resolution and number writes),
* `custom_components/econext/climate.py` (variant-B circuit controller).

Parameter values are modelled as rationals (`ℚ`): the registers the core
reads and writes are numeric, and Python ints/floats embed into `ℚ`
exactly for every value the claims quantify over.  String-valued metadata
(the `name` field and the `minvDP`/`maxvDP` pointers) is modelled with
`Option String`.
-/

namespace Econext

/-- A cached parameter dict, mirroring the keys the core reads:
`value`, `name`, `minv`, `maxv`, `minvDP`, `maxvDP`.  `Option` models a
missing key / a `None` entry, as returned by Python's `dict.get`. -/
structure Param where
  value : Option ℚ
  name : Option String := none
  minv : Option ℚ := none
  maxv : Option ℚ := none
  minvDP : Option String := none
  maxvDP : Option String := none
deriving DecidableEq

/-- The coordinator's cached snapshot: an id-keyed parameter map
(`self.data`, a Python dict keyed by string ids). -/
def Data : Type := String → Option Param

/-- `coordinator.get_param(param_id)`: dictionary lookup. -/
def get_param (d : Data) (id : String) : Option Param := d id

/-- `coordinator.get_param_value(param_id)`: `None` when the parameter is
absent or has no value, the cached value otherwise. -/
def get_param_value (d : Data) (id : String) : Option ℚ :=
  match d id with
  | none => none
  | some p => p.value

/-- Point update of the snapshot at one id
(`self.data[param_key]["value"] = value` patches exactly one entry). -/
def dset (d : Data) (id : String) (p : Param) : Data :=
  fun k => if k = id then some p else d k

/-- Outcome of one `async_set_param` call: whether a transport write was
issued (`wrote`), the Python-level result (`Except` models a raised typed
error versus a returned bool), and the post-call cache. -/
structure SetOutcome where
  wrote : Bool
  res : Except String Bool
  post : Data

/-- `EconetNextCoordinator.async_set_param` (econet_next variant): calls
the API unconditionally, and on a truthy result patches the cached
`value` field of the parameter when the id is present.  `api` is the
boolean returned by the transport write. -/
def econetNextSet (d : Data) (id : String) (v : ℚ) (api : Bool) : SetOutcome :=
  let post : Data :=
    if api then
      match d id with
      | some p => dset d id { p with value := some v }
      | none => d
    else d
  ⟨true, .ok api, post⟩

/-- `EconextCoordinator.async_set_param` (econext variant): raises a typed
`EconextApiError` before any transport call when the id is absent or the
cached parameter has a falsy `name` (missing or empty string); otherwise
calls the API by name and patches the cache on success. -/
def econextSet (d : Data) (id : String) (v : ℚ) (api : Bool) : SetOutcome :=
  match d id with
  | none => ⟨false, .error "Unknown parameter", d⟩
  | some p =>
    match p.name with
    | none => ⟨false, .error "Parameter has no name", d⟩
    | some nm =>
      if nm = "" then ⟨false, .error "Parameter has no name", d⟩
      else
        let post : Data := if api then dset d id { p with value := some v } else d
        ⟨true, .ok api, post⟩

/-- Concrete snapshot used by witnesses: a single parameter `"288"`
(circuit 2 comfort setpoint) with value 21 and a name. -/
def sampleData : Data :=
  fun k => if k = "288" then some { value := some 21, name := some "Circuit2ComfortTemp" } else none

/-- Embedding of Python `value | (1 << pos)` on a nonnegative register:
sets bit `pos`. -/
def setBit (v p : Nat) : Nat := v ||| (1 <<< p)

/-- Embedding of Python `value & ~(1 << pos)` on a nonnegative register:
clears bit `pos` (on a nonnegative arbitrary-precision int this is exactly
the removal of `2^pos` when the bit is set). -/
def clearBit (v p : Nat) : Nat := if v.testBit p then v ^^^ (1 <<< p) else v

/-- `EconetNextSwitch.async_turn_on`, bitmap branch: the new register
value written to the coordinator.  With `invert_logic` a cleared bit
means ON, so turn-on clears the bit; otherwise it sets the bit. -/
def turnOnValue (v : Nat) (p : Nat) (invert : Bool) : Nat :=
  if invert then clearBit v p else setBit v p

/-- `EconetNextSwitch.async_turn_off`, bitmap branch: with `invert_logic`
a set bit means OFF, so turn-off sets the bit; otherwise it clears it. -/
def turnOffValue (v : Nat) (p : Nat) (invert : Bool) : Nat :=
  if invert then setBit v p else clearBit v p

/-- Decimal digit character (48 is the ASCII code of the zero digit). -/
def digitChar (n : Nat) : Char := Char.ofNat (48 + n % 10)

/-- Python `f"{n:02d}"` for the values the schedule decoder prints
(hours at most 24 and minutes 0 or 30, all below 100). -/
def format2 (n : Nat) : String := String.mk [digitChar (n / 10), digitChar n]

/-- The slot bits `(value >> bit) & 1` scanned by the decoder, for `bit`
in `0..23`, in ascending order. -/
def slotList (v : Nat) : List Bool := (List.range 24).map (fun i => v.testBit i)

/-- The scanning loop of `decode_schedule_bitfield`: walk the slot bits in
ascending order carrying the current run start (`start_bit`), emit a
half-open slot interval when a run ends at a clear bit, and flush the
trailing run at slot 24 (the final flush in the source renders the end as
hour `(offset+24)//2` with minute 0, which is the same rendering the
interval `(start, 24)` receives below). -/
def runsAux : List Bool → Nat → Option Nat → List (Nat × Nat)
  | [], _, none => []
  | [], n, some s => [(s, n)]
  | b :: rest, n, none =>
    if b then runsAux rest (n + 1) (some n) else runsAux rest (n + 1) none
  | b :: rest, n, some s =>
    if b then runsAux rest (n + 1) (some s) else (s, n) :: runsAux rest (n + 1) none

/-- The list of maximal runs of set bits among slots `0..23`. -/
def scheduleRuns (v : Nat) : List (Nat × Nat) := runsAux (slotList v) 0 none

/-- Rendering of one slot interval as `"HH:MM-HH:MM"`: slot width is 30
minutes, so slot `k` starts at hour `(offset+k)//2`, minute
`((offset+k)%2)*30`.  `offset` is 0 for AM and 24 (half-hours, i.e. +12
hours) for PM. -/
def renderRange (offset : Nat) (r : Nat × Nat) : String :=
  format2 ((offset + r.1) / 2) ++ ":" ++ format2 ((offset + r.1) % 2 * 30) ++ "-" ++
    format2 ((offset + r.2) / 2) ++ ":" ++ format2 ((offset + r.2) % 2 * 30)

/-- `decode_schedule_bitfield(value, is_am)` from `sensor.py` (identical
in `custom_components/econext/sensor.py`): bitmask 0 yields the sentinel,
otherwise the maximal runs of set slot bits are rendered and joined with
`", "`. -/
def decode_schedule_bitfield (value : Nat) (is_am : Bool) : String :=
  if value = 0 then "No active periods"
  else
    String.intercalate ", "
      ((scheduleRuns value).map (renderRange (if is_am then 0 else 24)))

/-- Modelled from the spec: `encode` does not exist in the source (the
schedule codec is decode-only); spec §4.4 specifies it as the structural
inverse that turns a list of half-hour-aligned slot ranges into the
bitmask, each half-open range `(s, e)` contributing the bits `s..e-1`. -/
def encodeRanges (rs : List (Nat × Nat)) : Nat :=
  rs.foldr (fun r acc => (2 ^ r.2 - 2 ^ r.1) ||| acc) 0

/-- Membership of a slot index in one of a list of half-open ranges. -/
def Covered (rs : List (Nat × Nat)) (i : Nat) : Prop :=
  ∃ r ∈ rs, r.1 ≤ i ∧ i < r.2

/-- Well-formedness of a range list from a lower slot bound: starts are at
or above the bound, every range is nonempty, and each next range starts
strictly after the previous one ends (runs are maximal and ascending). -/
def rangesWF : Nat → List (Nat × Nat) → Bool
  | _, [] => true
  | lo, r :: rest => decide (lo ≤ r.1) && decide (r.1 < r.2) && rangesWF (r.2 + 1) rest

/-- A number entity description: the static fallback bounds the
integration's tables supply (`native_min_value` / `native_max_value`). -/
structure NumberDesc where
  param_id : String
  native_min_value : Option ℚ := none
  native_max_value : Option ℚ := none

/-- Python `self._description.native_min_value or 0`: a missing or zero
(falsy) fallback yields 0. -/
def fallbackMin (o : Option ℚ) : ℚ :=
  match o with
  | some q => if q = 0 then 0 else q
  | none => 0

/-- Python `self._description.native_max_value or 100`: a missing or zero
(falsy) fallback yields 100. -/
def fallbackMax (o : Option ℚ) : ℚ :=
  match o with
  | some q => if q = 0 then 100 else q
  | none => 100

/-- Static tier of `native_min_value` in
`custom_components/econet_next/number.py`: the static bound is used only
when `minv` and `maxv` are both present and form a valid range
(`minv < maxv`); otherwise the description fallback applies. -/
def staticMinNext (p : Param) (desc : NumberDesc) : ℚ :=
  match p.minv, p.maxv with
  | some mn, some mx =>
    if mn < mx then mn else fallbackMin desc.native_min_value
  | _, _ => fallbackMin desc.native_min_value

/-- Static tier of `native_max_value` in
`custom_components/econet_next/number.py`. -/
def staticMaxNext (p : Param) (desc : NumberDesc) : ℚ :=
  match p.minv, p.maxv with
  | some mn, some mx =>
    if mn < mx then mx else fallbackMax desc.native_max_value
  | _, _ => fallbackMax desc.native_max_value

/-- Static tier of `native_min_value` in the top-level `number.py`: the
static bound is used whenever `minv` is present, with no validity check
against `maxv`. -/
def staticMinLegacy (p : Param) (desc : NumberDesc) : ℚ :=
  match p.minv with
  | some mn => mn
  | none => fallbackMin desc.native_min_value

/-- Static tier of `native_max_value` in the top-level `number.py`. -/
def staticMaxLegacy (p : Param) (desc : NumberDesc) : ℚ :=
  match p.maxv with
  | some mx => mx
  | none => fallbackMax desc.native_max_value

/-- `EconetNextNumber.native_min_value`
(`custom_components/econet_next/number.py`): dynamic pointer `minvDP`
first (its referenced parameter's current value, when it has one), then
the static tier, then the fallback (also when the entity's own parameter
is absent). -/
def nextMinValue (d : Data) (desc : NumberDesc) : ℚ :=
  match d desc.param_id with
  | none => fallbackMin desc.native_min_value
  | some p =>
    match p.minvDP with
    | some dp =>
      match get_param_value d dp with
      | some q => q
      | none => staticMinNext p desc
    | none => staticMinNext p desc

/-- `EconetNextNumber.native_max_value`
(`custom_components/econet_next/number.py`). -/
def nextMaxValue (d : Data) (desc : NumberDesc) : ℚ :=
  match d desc.param_id with
  | none => fallbackMax desc.native_max_value
  | some p =>
    match p.maxvDP with
    | some dp =>
      match get_param_value d dp with
      | some q => q
      | none => staticMaxNext p desc
    | none => staticMaxNext p desc

/-- `EconetNextNumber.native_min_value` in the top-level `number.py`. -/
def legacyMinValue (d : Data) (desc : NumberDesc) : ℚ :=
  match d desc.param_id with
  | none => fallbackMin desc.native_min_value
  | some p =>
    match p.minvDP with
    | some dp =>
      match get_param_value d dp with
      | some q => q
      | none => staticMinLegacy p desc
    | none => staticMinLegacy p desc

/-- `EconetNextNumber.native_max_value` in the top-level `number.py`. -/
def legacyMaxValue (d : Data) (desc : NumberDesc) : ℚ :=
  match d desc.param_id with
  | none => fallbackMax desc.native_max_value
  | some p =>
    match p.maxvDP with
    | some dp =>
      match get_param_value d dp with
      | some q => q
      | none => staticMaxLegacy p desc
    | none => staticMaxLegacy p desc

/-- `EconetNextNumber.async_set_native_value`
(`custom_components/econet_next/number.py`), modelled as the transport
write it issues (`none` means the method returns without writing).  The
source first returns when the requested value equals the current
`native_value`, then logs a warning when the value exceeds
`native_max_value` without returning, then returns when the value is
below `native_min_value`; the `int(value)` conversion for integral values
is numerically the identity in `ℚ`. -/
def nextSetNativeValue (d : Data) (desc : NumberDesc) (value : ℚ) : Option ℚ :=
  if get_param_value d desc.param_id = some value then none
  else if value < nextMinValue d desc then none
  else some value

/-- `EconetNextNumber.async_set_native_value` in the top-level
`number.py`: identical logic over that file's resolved bounds. -/
def legacySetNativeValue (d : Data) (desc : NumberDesc) (value : ℚ) : Option ℚ :=
  if get_param_value d desc.param_id = some value then none
  else if value < legacyMinValue d desc then none
  else some value

/-- Home Assistant HVAC modes used by the circuit controller. -/
inductive HVACMode where
  | off
  | heat
  | cool
  | auto
  | heat_cool
deriving DecidableEq

/-- The parameter ids a `CircuitClimate` entity is constructed with
(`custom_components/econext/climate.py`). -/
structure CircuitCfg where
  work_state_param : String
  settings_param : String
  thermostat_param : String
  comfort_param : String
  eco_param : String
  room_temp_setpoint_param : String

/-- Python `int()` on a rational float value: truncation toward zero. -/
def pyInt (q : ℚ) : ℤ := q.num.tdiv q.den

/-- Python `(n >> k) & 1` on a (possibly negative) int: arithmetic shift
is floor division and the two's-complement low bit is the euclidean
remainder mod 2. -/
def pyBit (n : ℤ) (k : Nat) : ℤ := Int.emod (Int.fdiv n (2 ^ k)) 2

/-- `CircuitClimate._get_work_state`: `int(value)` of the work-state
parameter, defaulting to 0 when the parameter or its value is absent. -/
def _get_work_state (d : Data) (cfg : CircuitCfg) : ℤ :=
  match d cfg.work_state_param with
  | some p =>
    match p.value with
    | some q => pyInt q
    | none => 0
  | none => 0

/-- `int(settings_param.get("value", 0))`. -/
def settingsValue (p : Param) : ℤ :=
  match p.value with
  | some q => pyInt q
  | none => 0

/-- `CircuitClimate.hvac_mode`: OFF when WorkState is OFF (0); otherwise
HEAT when the settings bitmap is absent; otherwise from the two enable
bits (bit 20 inverted heating enable, bit 17 cooling enable): both
enabled gives AUTO, only heating HEAT, only cooling COOL, neither HEAT. -/
def hvac_mode (d : Data) (cfg : CircuitCfg) : HVACMode :=
  if _get_work_state d cfg = 0 then .off
  else
    match d cfg.settings_param with
    | none => .heat
    | some p =>
      let sv := settingsValue p
      if pyBit sv 20 = 0 ∧ pyBit sv 17 = 1 then .auto
      else if pyBit sv 20 = 0 then .heat
      else if pyBit sv 17 = 1 then .cool
      else .heat

/-- Python `self._last_preset if self._last_preset else PRESET_COMFORT`:
a falsy remembered preset (absent or empty) defaults to comfort. -/
def presetOrComfort (last : Option String) : Option String :=
  match last with
  | some s => if s = "" then some "comfort" else some s
  | none => some "comfort"

/-- `CircuitClimate._detect_active_preset`: compare the live room
setpoint against the eco and comfort targets with strict absolute
tolerance 0.1; on a match return and remember that preset; otherwise
return the remembered preset (defaulting to comfort) without updating
it.  Returns `(return value, new remembered preset)`. -/
def _detect_active_preset (d : Data) (cfg : CircuitCfg) (last : Option String) :
    Option String × Option String :=
  match d cfg.room_temp_setpoint_param with
  | none => (none, last)
  | some pr =>
    match pr.value with
    | none => (none, last)
    | some setpoint =>
      match d cfg.eco_param, d cfg.comfort_param with
      | some pe, some pc =>
        match pe.value, pc.value with
        | some eco_temp, some comfort_temp =>
          if |setpoint - eco_temp| < 1/10 then (some "eco", some "eco")
          else if |setpoint - comfort_temp| < 1/10 then (some "comfort", some "comfort")
          else (presetOrComfort last, last)
        | _, _ => (none, last)
      | _, _ => (none, last)

/-- `CircuitClimate.preset_mode`: ECO (2) and COMFORT (1) map directly
(updating the remembered preset); AUTO (3) runs active-preset detection
for its side effect on the remembered preset and reports `"schedule"`;
anything else reports nothing.  Returns
`(preset, new remembered preset)`. -/
def preset_mode (d : Data) (cfg : CircuitCfg) (last : Option String) :
    Option String × Option String :=
  let ws := _get_work_state d cfg
  if ws = 2 then (some "eco", some "eco")
  else if ws = 1 then (some "comfort", some "comfort")
  else if ws = 3 then (some "schedule", (_detect_active_preset d cfg last).2)
  else (none, last)

/-- `CircuitClimate.target_temperature`: reads `preset_mode` (which
updates the remembered preset), and in schedule mode routes the read to
the remembered preset's target parameter, defaulting to comfort when the
remembered preset is not eco or comfort. -/
def target_temperature (d : Data) (cfg : CircuitCfg) (last : Option String) : Option ℚ :=
  let pm := preset_mode d cfg last
  match pm.1 with
  | some ps =>
    if ps = "schedule" then
      let active : String :=
        match pm.2 with
        | some s => if s = "eco" ∨ s = "comfort" then s else "comfort"
        | none => "comfort"
      let pid := if active = "comfort" then cfg.comfort_param else cfg.eco_param
      match d pid with
      | some p => p.value
      | none => none
    else if ps = "comfort" then
      match d cfg.comfort_param with
      | some p => p.value
      | none => none
    else if ps = "eco" then
      match d cfg.eco_param with
      | some p => p.value
      | none => none
    else none
  | none => none

/-- Concrete snapshot for the C2 counterexample: circuit-1 work state
(`"236"`) is COMFORT (1) and the settings bitmap (`"231"`) has bit 17 set
and bit 20 clear, i.e. heating and cooling both enabled. -/
def c2Data : Data :=
  fun k =>
    if k = "236" then some { value := some 1 }
    else if k = "231" then some { value := some 131072 }
    else none

/-- Circuit-1 parameter ids from the `CIRCUITS` table of
`custom_components/econext/climate.py`. -/
def c2Cfg : CircuitCfg :=
  ⟨"236", "231", "277", "238", "239", "42"⟩

/-- Concrete circuit-1 snapshot for the C3 scenario: WorkState (`"236"`)
is AUTO (3), eco target (`"239"`) 17.5, comfort target (`"238"`) 21.0,
room setpoint (`"42"`) 17.5. -/
def c3Data : Data :=
  fun k =>
    if k = "236" then some { value := some 3 }
    else if k = "239" then some { value := some (35/2) }
    else if k = "238" then some { value := some 21 }
    else if k = "42" then some { value := some (35/2) }
    else none

/-- Concrete snapshot for the C4 counterexample: parameter `"300"` has
the degenerate static range `minv = maxv = 0` and no dynamic pointer. -/
def c4Data : Data :=
  fun k =>
    if k = "300" then some { value := some 0, minv := some 0, maxv := some 0 }
    else none

/-- Description for the C4 counterexample with fallback bounds 5 and 40. -/
def c4Desc : NumberDesc := ⟨"300", some 5, some 40⟩

/-- Concrete snapshot for the C9 counterexample: parameter `"7"` has the
valid static range 0..40 but currently caches the out-of-range value
50. -/
def c9Data : Data :=
  fun k =>
    if k = "7" then some { value := some 50, minv := some 0, maxv := some 40 }
    else none

/-- Description for the C9 counterexample. -/
def c9Desc : NumberDesc := ⟨"7", some 0, some 40⟩

end Econext

open Econext

/-- **C1**: for a parameter id present in the cached snapshot, when
`async_set_param` returns success (`.ok true`), an immediately following
`get_param_value` of that id returns the written value (no refresh runs in
between in this model), every other id's entry is untouched, and the
patched entry changes only the `value` field.  Both coordinator variants
satisfy this. -/
theorem C1_optimistic_patch (d : Data) (id : String) (v : ℚ) (api : Bool)
    (p : Param) (hp : d id = some p) :
    ((econetNextSet d id v api).res = .ok true →
      get_param_value (econetNextSet d id v api).post id = some v ∧
      (∀ k, k ≠ id → (econetNextSet d id v api).post k = d k) ∧
      (econetNextSet d id v api).post id = some { p with value := some v }) ∧
    ((econextSet d id v api).res = .ok true →
      get_param_value (econextSet d id v api).post id = some v ∧
      (∀ k, k ≠ id → (econextSet d id v api).post k = d k) ∧
      (econextSet d id v api).post id = some { p with value := some v }) := by
  constructor
  · intro hres
    have hapi : api = true := by simpa [econetNextSet] using hres
    subst hapi
    refine ⟨?_, fun k hk => ?_, ?_⟩
    · simp [econetNextSet, hp, get_param_value, dset]
    · simp [econetNextSet, hp, dset, hk]
    · simp [econetNextSet, hp, dset]
  · intro hres
    rcases hn : p.name with _ | nm
    · exact absurd hres (by simp [econextSet, hp, hn])
    · by_cases hnm : nm = ""
      · exact absurd hres (by simp [econextSet, hp, hn, hnm])
      · have hapi : api = true := by simpa [econextSet, hp, hn, hnm] using hres
        subst hapi
        refine ⟨?_, fun k hk => ?_, ?_⟩
        · simp [econextSet, hp, hn, hnm, get_param_value, dset]
        · simp [econextSet, hp, hn, hnm, dset, hk]
        · simp [econextSet, hp, hn, hnm, dset]

/-- Witness for C1: on the concrete snapshot `sampleData`, a successful
write of 22.5 to parameter `"288"` is immediately readable in both
coordinator variants. -/
theorem C1_optimistic_patch_witness :
    get_param_value (econetNextSet sampleData "288" (45/2) true).post "288" = some (45/2) ∧
    get_param_value (econextSet sampleData "288" (45/2) true).post "288" = some (45/2) := by
  have h := C1_optimistic_patch sampleData "288" (45/2) true
    { value := some 21, name := some "Circuit2ComfortTemp" } (by decide)
  exact ⟨(h.1 rfl).1, (h.2 rfl).1⟩

/-- Bit `i` of `setBit v p`. -/
theorem testBit_setBit (v p i : Nat) :
    (setBit v p).testBit i = (v.testBit i || decide (p = i)) := by
  simp [setBit, Nat.one_shiftLeft, Nat.testBit_two_pow]

/-- Bit `i` of `clearBit v p`. -/
theorem testBit_clearBit (v p i : Nat) :
    (clearBit v p).testBit i = (v.testBit i && !decide (p = i)) := by
  unfold clearBit
  by_cases h : v.testBit p
  · by_cases hip : p = i
    · subst hip; simp [h, Nat.one_shiftLeft, Nat.testBit_two_pow]
    · simp [h, hip, Nat.one_shiftLeft, Nat.testBit_two_pow]
  · by_cases hip : p = i
    · subst hip; simp [h]
    · simp [h, hip]

/-- Setting a bit after clearing it gives the same register as setting it
directly. -/
theorem setBit_clearBit (v p : Nat) : setBit (clearBit v p) p = setBit v p := by
  apply Nat.eq_of_testBit_eq
  intro i
  by_cases hip : p = i <;> simp [testBit_setBit, testBit_clearBit, hip]

/-- Clearing a bit after setting it gives the same register as clearing it
directly. -/
theorem clearBit_setBit (v p : Nat) : clearBit (setBit v p) p = clearBit v p := by
  apply Nat.eq_of_testBit_eq
  intro i
  by_cases hip : p = i <;> simp [testBit_setBit, testBit_clearBit, hip]

/-- `setBit` is idempotent. -/
theorem setBit_idem (v p : Nat) : setBit (setBit v p) p = setBit v p := by
  apply Nat.eq_of_testBit_eq
  intro i
  by_cases hip : p = i <;> simp [testBit_setBit, hip]

/-- `clearBit` is idempotent. -/
theorem clearBit_idem (v p : Nat) : clearBit (clearBit v p) p = clearBit v p := by
  apply Nat.eq_of_testBit_eq
  intro i
  by_cases hip : p = i <;> simp [testBit_clearBit, hip]

/-- **C5 counterexample**: the claim `turn_off (turn_on v) = v & ~(1<<p)`
fails for inverted switches: at `v = 0`, `p = 0`, `invert = true` the
turn-on/turn-off sequence yields 1, while `v & ~(1<<p)` is 0. -/
theorem C5_counterexample :
    turnOffValue (turnOnValue 0 0 true) 0 true ≠ clearBit 0 0 := by decide

/-- **C5 amended**: writing bit `p` on and then off via the switch
read-modify-write yields `v & ~(1<<p)` when `invert` is false and
`v | (1<<p)` when `invert` is true; in both cases every bit other than
`p` is untouched, and the final bit-write is idempotent. -/
theorem C5_turn_on_then_off (v p : Nat) (inv : Bool) :
    turnOffValue (turnOnValue v p inv) p inv
      = (if inv then setBit v p else clearBit v p) ∧
    (∀ i, i ≠ p → (turnOffValue (turnOnValue v p inv) p inv).testBit i = v.testBit i) ∧
    turnOffValue (turnOffValue (turnOnValue v p inv) p inv) p inv
      = turnOffValue (turnOnValue v p inv) p inv := by
  cases inv
  · refine ⟨?_, ?_, ?_⟩
    · simpa [turnOnValue, turnOffValue] using clearBit_setBit v p
    · intro i hi
      have hpi : ¬p = i := fun h => hi h.symm
      simp [turnOnValue, turnOffValue, testBit_setBit, testBit_clearBit, hpi]
    · simp only [turnOnValue, turnOffValue, Bool.false_eq_true, if_false]
      rw [clearBit_setBit, clearBit_idem]
  · refine ⟨?_, ?_, ?_⟩
    · simpa [turnOnValue, turnOffValue] using setBit_clearBit v p
    · intro i hi
      have hpi : ¬p = i := fun h => hi h.symm
      simp [turnOnValue, turnOffValue, testBit_setBit, testBit_clearBit, hpi]
    · simp only [turnOnValue, turnOffValue, if_true]
      rw [setBit_clearBit, setBit_idem]

/-- Witness for C5 amended, at `v = 5`, `p = 1`, `invert = false`:
the sequence clears bit 1 and leaves bit 0 of 5 unchanged. -/
theorem C5_turn_on_then_off_witness :
    turnOffValue (turnOnValue 5 1 false) 1 false = clearBit 5 1 ∧
    (turnOffValue (turnOnValue 5 1 false) 1 false).testBit 0 = (5 : Nat).testBit 0 :=
  ⟨(C5_turn_on_then_off 5 1 false).1, (C5_turn_on_then_off 5 1 false).2.1 0 (by decide)⟩

/-- **C8 counterexample**: on the econet_next coordinator, `async_set_param`
on an id absent from the cache does not fail fast: the transport write is
still issued and the call returns success when the API reports success. -/
theorem C8_counterexample :
    (econetNextSet (fun _ => none) "999" 1 true).wrote = true ∧
    (econetNextSet (fun _ => none) "999" 1 true).res = .ok true :=
  ⟨rfl, rfl⟩

/-- **C8 amended**: setting an id absent from the cached snapshot fails
fast only in the econext coordinator, which raises a typed error before
any transport write and leaves the cache unchanged; the econet_next
coordinator issues the transport write anyway and returns the API result,
though its cache is also left unchanged. -/
theorem C8_unknown_id (d : Data) (id : String) (v : ℚ) (api : Bool)
    (h : d id = none) :
    ((econextSet d id v api).wrote = false ∧
     (econextSet d id v api).res = .error "Unknown parameter" ∧
     (econextSet d id v api).post = d) ∧
    ((econetNextSet d id v api).wrote = true ∧
     (econetNextSet d id v api).res = .ok api ∧
     (econetNextSet d id v api).post = d) := by
  refine ⟨⟨?_, ?_, ?_⟩, rfl, rfl, ?_⟩
  · simp [econextSet, h]
  · simp [econextSet, h]
  · simp [econextSet, h]
  · cases api <;> simp [econetNextSet, h]

/-- Witness for C8 amended: with an empty cache and id `"999"`, the
econext coordinator raises without writing and the econet_next
coordinator writes and returns the API result. -/
theorem C8_unknown_id_witness :
    (econextSet (fun _ => none) "999" 1 true).wrote = false ∧
    (econetNextSet (fun _ => none) "999" 1 true).wrote = true :=
  ⟨(C8_unknown_id (fun _ => none) "999" 1 true rfl).1.1,
   (C8_unknown_id (fun _ => none) "999" 1 true rfl).2.1⟩

/-- `Covered` on a cons. -/
theorem covered_cons (r : Nat × Nat) (rs : List (Nat × Nat)) (i : Nat) :
    Covered (r :: rs) i ↔ (r.1 ≤ i ∧ i < r.2) ∨ Covered rs i := by
  simp [Covered]

/-- Slot coverage of the runs produced by the scanning loop, for both
carrier states.  `getD j false` reads the `j`-th scanned bit. -/
theorem runsAux_covered (l : List Bool) : ∀ n : Nat,
    (∀ i, Covered (runsAux l n none) i ↔ ∃ j, l.getD j false = true ∧ i = n + j) ∧
    (∀ s, s ≤ n → ∀ i,
      Covered (runsAux l n (some s)) i ↔
        ((s ≤ i ∧ i < n) ∨ ∃ j, l.getD j false = true ∧ i = n + j)) := by
  induction l with
  | nil =>
    intro n
    constructor
    · intro i; simp [runsAux, Covered]
    · intro s hs i; simp [runsAux, Covered]
  | cons b rest ih =>
    intro n
    have ihn := ih (n + 1)
    constructor
    · intro i
      cases b
      · rw [show runsAux (false :: rest) n none = runsAux rest (n + 1) none from by
          simp [runsAux]]
        rw [ihn.1 i]
        constructor
        · rintro ⟨j, hj, rfl⟩; exact ⟨j + 1, by simpa using hj, by omega⟩
        · rintro ⟨j, hj, rfl⟩
          cases j with
          | zero => simp at hj
          | succ j => exact ⟨j, by simpa using hj, by omega⟩
      · rw [show runsAux (true :: rest) n none = runsAux rest (n + 1) (some n) from by
          simp [runsAux]]
        rw [ihn.2 n (Nat.le_succ n) i]
        constructor
        · rintro (⟨h1, h2⟩ | ⟨j, hj, rfl⟩)
          · exact ⟨0, by simp, by omega⟩
          · exact ⟨j + 1, by simpa using hj, by omega⟩
        · rintro ⟨j, hj, rfl⟩
          cases j with
          | zero => exact Or.inl (by omega)
          | succ j => exact Or.inr ⟨j, by simpa using hj, by omega⟩
    · intro s hs i
      cases b
      · rw [show runsAux (false :: rest) n (some s)
              = (s, n) :: runsAux rest (n + 1) none from by simp [runsAux]]
        rw [covered_cons, ihn.1 i]
        constructor
        · rintro (h | ⟨j, hj, rfl⟩)
          · exact Or.inl h
          · exact Or.inr ⟨j + 1, by simpa using hj, by omega⟩
        · rintro (h | ⟨j, hj, rfl⟩)
          · exact Or.inl h
          · cases j with
            | zero => simp at hj
            | succ j => exact Or.inr ⟨j, by simpa using hj, by omega⟩
      · rw [show runsAux (true :: rest) n (some s)
              = runsAux rest (n + 1) (some s) from by simp [runsAux]]
        rw [ihn.2 s (by omega) i]
        constructor
        · rintro (⟨h1, h2⟩ | ⟨j, hj, rfl⟩)
          · rcases Nat.lt_or_ge i n with h | h
            · exact Or.inl ⟨h1, h⟩
            · exact Or.inr ⟨0, by simp, by omega⟩
          · exact Or.inr ⟨j + 1, by simpa using hj, by omega⟩
        · rintro (⟨h1, h2⟩ | ⟨j, hj, rfl⟩)
          · exact Or.inl ⟨h1, by omega⟩
          · cases j with
            | zero => exact Or.inl ⟨by omega, by omega⟩
            | succ j => exact Or.inr ⟨j, by simpa using hj, by omega⟩

/-- The `j`-th scanned slot bit is bit `j` of the register when `j < 24`,
and false beyond the scan. -/
theorem slotList_getD (v j : Nat) :
    (slotList v).getD j false = (decide (j < 24) && v.testBit j) := by
  by_cases h : j < 24
  · simp [slotList, List.getElem?_map, List.getElem?_range h, h]
  · have hlen : (slotList v).length = 24 := by simp [slotList]
    rw [List.getD_eq_getElem?_getD, List.getElem?_eq_none (by omega)]
    simp [h]

/-- A slot is covered by `scheduleRuns v` exactly when it is one of the 24
scanned slots and its bit is set in `v`. -/
theorem covered_scheduleRuns (v i : Nat) :
    Covered (scheduleRuns v) i ↔ (i < 24 ∧ v.testBit i = true) := by
  rw [scheduleRuns, (runsAux_covered (slotList v) 0).1 i]
  constructor
  · rintro ⟨j, hj, rfl⟩
    rw [slotList_getD] at hj
    rcases Bool.and_eq_true _ _ |>.mp hj with ⟨h1, h2⟩
    exact ⟨by simpa using h1, by simpa using h2⟩
  · rintro ⟨h1, h2⟩
    exact ⟨i, by rw [slotList_getD]; simp [h1, h2], by omega⟩

/-- Well-formedness is antitone in the lower bound. -/
theorem rangesWF_mono (lo lo' : Nat) (rs : List (Nat × Nat)) (h : lo ≤ lo') :
    rangesWF lo' rs = true → rangesWF lo rs = true := by
  cases rs with
  | nil => simp [rangesWF]
  | cons r rest =>
    simp only [rangesWF, Bool.and_eq_true, decide_eq_true_eq]
    rintro ⟨⟨h1, h2⟩, h3⟩
    exact ⟨⟨by omega, h2⟩, h3⟩

/-- The scanning loop produces well-formed (ascending, nonempty, gapped)
runs, for both carrier states. -/
theorem runsAux_wf (l : List Bool) : ∀ n : Nat,
    rangesWF n (runsAux l n none) = true ∧
    (∀ s, s < n → rangesWF s (runsAux l n (some s)) = true) := by
  induction l with
  | nil =>
    intro n
    refine ⟨by simp [runsAux, rangesWF], fun s hs => ?_⟩
    simp [runsAux, rangesWF, hs]
  | cons b rest ih =>
    intro n
    have ihn := ih (n + 1)
    constructor
    · cases b
      · rw [show runsAux (false :: rest) n none = runsAux rest (n + 1) none from by
          simp [runsAux]]
        exact rangesWF_mono n (n + 1) _ (Nat.le_succ n) ihn.1
      · rw [show runsAux (true :: rest) n none = runsAux rest (n + 1) (some n) from by
          simp [runsAux]]
        exact ihn.2 n (Nat.lt_succ_self n)
    · intro s hs
      cases b
      · rw [show runsAux (false :: rest) n (some s)
              = (s, n) :: runsAux rest (n + 1) none from by simp [runsAux]]
        simp only [rangesWF, Bool.and_eq_true, decide_eq_true_eq]
        exact ⟨⟨Nat.le_refl s, hs⟩, ihn.1⟩
      · rw [show runsAux (true :: rest) n (some s)
              = runsAux rest (n + 1) (some s) from by simp [runsAux]]
        exact ihn.2 s (by omega)

/-- Every range in a well-formed list is nonempty. -/
theorem rangesWF_le (lo : Nat) (rs : List (Nat × Nat))
    (h : rangesWF lo rs = true) : ∀ r ∈ rs, r.1 ≤ r.2 := by
  induction rs generalizing lo with
  | nil => intro r hr; simp at hr
  | cons r rest ih =>
    simp only [rangesWF, Bool.and_eq_true, decide_eq_true_eq] at h
    intro x hx
    rcases List.mem_cons.mp hx with rfl | hx
    · omega
    · exact ih (r.2 + 1) h.2 x hx

/-- Bit `i` of the mask `2^e - 2^s` covering bits `s..e-1`. -/
theorem testBit_rangeMask (s e i : Nat) (hse : s ≤ e) :
    (2 ^ e - 2 ^ s).testBit i = (decide (s ≤ i) && decide (i < e)) := by
  rw [show 2 ^ e - 2 ^ s = (2 ^ (e - s) - 1) <<< s from by
    rw [Nat.shiftLeft_eq, Nat.sub_mul, one_mul, ← pow_add]
    congr 2
    omega]
  rw [Nat.testBit_shiftLeft, Nat.testBit_two_pow_sub_one]
  by_cases h1 : s ≤ i
  · have h2 : (i - s < e - s) ↔ (i < e) := by omega
    simp [h1, ge_iff_le, h2]
  · simp [h1, ge_iff_le]

/-- Bit `i` of the spec-modelled `encode` of a list of nonempty ranges. -/
theorem testBit_encodeRanges (rs : List (Nat × Nat))
    (h : ∀ r ∈ rs, r.1 ≤ r.2) (i : Nat) :
    (encodeRanges rs).testBit i = true ↔ Covered rs i := by
  induction rs with
  | nil => simp [encodeRanges, Covered]
  | cons r rest ih =>
    have hr : r.1 ≤ r.2 := h r (List.mem_cons_self r rest)
    have hrest := ih (fun x hx => h x (List.mem_cons_of_mem r hx))
    rw [show encodeRanges (r :: rest) = (2 ^ r.2 - 2 ^ r.1) ||| encodeRanges rest from rfl]
    rw [covered_cons]
    simp only [Nat.testBit_or, Bool.or_eq_true, Bool.and_eq_true, decide_eq_true_eq,
      testBit_rangeMask r.1 r.2 i hr, hrest]

/-- The spec-modelled `encode` inverts the run decomposition on every
24-bit mask. -/
theorem encode_scheduleRuns (v : Nat) (hv : v < 2 ^ 24) :
    encodeRanges (scheduleRuns v) = v := by
  have hwf := (runsAux_wf (slotList v) 0).1
  have hle := rangesWF_le 0 _ hwf
  apply Nat.eq_of_testBit_eq
  intro i
  have h1 := testBit_encodeRanges (scheduleRuns v) hle i
  have h2 := covered_scheduleRuns v i
  by_cases h24 : i < 24
  · cases hb : v.testBit i
    · cases hb2 : (encodeRanges (scheduleRuns v)).testBit i
      · rfl
      · have := h2.mp (h1.mp hb2)
        rw [hb] at this
        exact absurd this.2 (by simp)
    · exact h1.mpr (h2.mpr ⟨h24, hb⟩)
  · have hvi : v.testBit i = false :=
      Nat.testBit_lt_two_pow (lt_of_lt_of_le hv (Nat.pow_le_pow_right (by norm_num) (by omega)))
    cases hb2 : (encodeRanges (scheduleRuns v)).testBit i
    · rw [hvi]
    · have := h2.mp (h1.mp hb2)
      omega

/-- The scanning loop yields no runs when every scanned bit is clear. -/
theorem runsAux_all_false (l : List Bool) (h : ∀ b ∈ l, b = false) :
    ∀ n, runsAux l n none = [] := by
  induction l with
  | nil => intro n; simp [runsAux]
  | cons b rest ih =>
    intro n
    have hb : b = false := h b (List.mem_cons_self b rest)
    subst hb
    rw [show runsAux (false :: rest) n none = runsAux rest (n + 1) none from by
      simp [runsAux]]
    exact ih (fun x hx => h x (List.mem_cons_of_mem _ hx)) (n + 1)

/-- **C6**: `decode_schedule_bitfield` returns the sentinel for mask 0,
decodes mask 1792 (bits 8-10) to `"04:00-05:30"` in AM mode and
`"16:00-17:30"` in PM mode (the PM offset is 24 half-hour slots, i.e.
+12 hours), and in general renders the maximal ascending runs of set
slot bits joined by `", "`; the runs are well formed: nonempty, in
ascending order, separated by gaps, and covering exactly the set bits
among slots 0..23. -/
theorem C6_decode_schedule_bitfield :
    decode_schedule_bitfield 0 true = "No active periods" ∧
    decode_schedule_bitfield 0 false = "No active periods" ∧
    decode_schedule_bitfield 1792 true = "04:00-05:30" ∧
    decode_schedule_bitfield 1792 false = "16:00-17:30" ∧
    (∀ v : Nat, v ≠ 0 → ∀ is_am : Bool,
      decode_schedule_bitfield v is_am =
        String.intercalate ", "
          ((scheduleRuns v).map (renderRange (if is_am then 0 else 24)))) ∧
    (∀ v : Nat, rangesWF 0 (scheduleRuns v) = true ∧
      ∀ i, Covered (scheduleRuns v) i ↔ (i < 24 ∧ v.testBit i = true)) := by
  refine ⟨rfl, rfl, rfl, rfl, ?_, ?_⟩
  · intro v hv is_am
    rw [decode_schedule_bitfield, if_neg hv]
  · exact fun v => ⟨(runsAux_wf (slotList v) 0).1, covered_scheduleRuns v⟩

/-- Witness for C6: the general rendering clause and the well-formedness
clause evaluated at mask 1792. -/
theorem C6_decode_schedule_bitfield_witness :
    decode_schedule_bitfield 1792 true =
      String.intercalate ", " ((scheduleRuns 1792).map (renderRange 0)) ∧
    rangesWF 0 (scheduleRuns 1792) = true :=
  ⟨C6_decode_schedule_bitfield.2.2.2.2.1 1792 (by decide) true,
   (C6_decode_schedule_bitfield.2.2.2.2.2 1792).1⟩

/-- **C7**: the spec-modelled `encode` is the structural inverse of the
decoder's run decomposition on every 24-bit mask; mask 0 decodes to the
sentinel, and the full mask 0xFFFFFF decodes to a single full-span
range. -/
theorem C7_encode_decode_round_trip :
    (∀ v : Nat, v < 2 ^ 24 → encodeRanges (scheduleRuns v) = v) ∧
    decode_schedule_bitfield 0 true = "No active periods" ∧
    decode_schedule_bitfield 0 false = "No active periods" ∧
    scheduleRuns 16777215 = [(0, 24)] ∧
    decode_schedule_bitfield 16777215 true = "00:00-12:00" ∧
    decode_schedule_bitfield 16777215 false = "12:00-24:00" :=
  ⟨encode_scheduleRuns, rfl, rfl, by decide, rfl, rfl⟩

/-- Witness for C7: the round trip evaluated at mask 1792. -/
theorem C7_encode_decode_round_trip_witness :
    encodeRanges (scheduleRuns 1792) = 1792 :=
  C7_encode_decode_round_trip.1 1792 (by decide)

/-- **C10**: a non-zero register whose 24 scanned slot bits are all clear
(only bits 24 and above set) decodes to the empty string, not to the
`"No active periods"` sentinel: the zero check precedes the scan and the
scan emits no range. -/
theorem C10_high_bits_empty (v : Nat) (hnz : v ≠ 0)
    (hlow : ∀ i, i < 24 → v.testBit i = false) (is_am : Bool) :
    decode_schedule_bitfield v is_am = "" := by
  have hruns : scheduleRuns v = [] := by
    apply runsAux_all_false
    intro b hb
    simp only [slotList, List.mem_map, List.mem_range] at hb
    obtain ⟨i, hi, rfl⟩ := hb
    exact hlow i hi
  rw [decode_schedule_bitfield, if_neg hnz, hruns]
  rfl

/-- Witness for C10: register `2^24` decodes to the empty string. -/
theorem C10_high_bits_empty_witness :
    decode_schedule_bitfield 16777216 true = "" :=
  C10_high_bits_empty 16777216 (by decide) (by decide) true

/-- **C4 counterexample**: the claim that a degenerate static range
(`minv >= maxv`) with no dynamic pointer resolves to the caller-supplied
fallback fails for the top-level `number.py` resolver: with
`minv = maxv = 0` and fallback 5 it returns the static 0, not 5. -/
theorem C4_counterexample :
    legacyMinValue c4Data c4Desc = 0 ∧ legacyMinValue c4Data c4Desc ≠ 5 := by
  constructor
  · rfl
  · intro h
    exact absurd h (by norm_num [legacyMinValue, c4Data, c4Desc, staticMinLegacy])

/-- **C4 amended**: both resolvers give a dynamic pointer with a value
first precedence, even when a valid static range is present; the
econet_next resolver then uses the static bound only when `minv < maxv`
and otherwise the fallback, while the top-level `number.py` resolver uses
a present static bound unconditionally (degenerate ranges included); with
no dynamic pointer and no static bound both fall back. -/
theorem C4_range_precedence :
    (∀ (d : Data) (desc : NumberDesc) (p : Param) (dp : String) (q : ℚ),
      d desc.param_id = some p → p.minvDP = some dp → get_param_value d dp = some q →
      nextMinValue d desc = q ∧ legacyMinValue d desc = q) ∧
    (∀ (d : Data) (desc : NumberDesc) (p : Param) (dp : String) (q : ℚ),
      d desc.param_id = some p → p.maxvDP = some dp → get_param_value d dp = some q →
      nextMaxValue d desc = q ∧ legacyMaxValue d desc = q) ∧
    (∀ (d : Data) (desc : NumberDesc) (p : Param) (mn mx : ℚ),
      d desc.param_id = some p → p.minvDP = none → p.minv = some mn → p.maxv = some mx →
      (mn < mx → nextMinValue d desc = mn) ∧
      (¬mn < mx → nextMinValue d desc = fallbackMin desc.native_min_value) ∧
      legacyMinValue d desc = mn) ∧
    (∀ (d : Data) (desc : NumberDesc) (p : Param) (mn mx : ℚ),
      d desc.param_id = some p → p.maxvDP = none → p.minv = some mn → p.maxv = some mx →
      (mn < mx → nextMaxValue d desc = mx) ∧
      (¬mn < mx → nextMaxValue d desc = fallbackMax desc.native_max_value) ∧
      legacyMaxValue d desc = mx) ∧
    (∀ (d : Data) (desc : NumberDesc) (p : Param),
      d desc.param_id = some p → p.minvDP = none → p.minv = none →
      nextMinValue d desc = fallbackMin desc.native_min_value ∧
      legacyMinValue d desc = fallbackMin desc.native_min_value) := by
  refine ⟨?_, ?_, ?_, ?_, ?_⟩
  · intro d desc p dp q hp hdp hq
    constructor
    · simp [nextMinValue, hp, hdp, hq]
    · simp [legacyMinValue, hp, hdp, hq]
  · intro d desc p dp q hp hdp hq
    constructor
    · simp [nextMaxValue, hp, hdp, hq]
    · simp [legacyMaxValue, hp, hdp, hq]
  · intro d desc p mn mx hp hdp hmn hmx
    refine ⟨?_, ?_, ?_⟩
    · intro hlt
      simp [nextMinValue, hp, hdp, staticMinNext, hmn, hmx, hlt]
    · intro hlt
      simp [nextMinValue, hp, hdp, staticMinNext, hmn, hmx, hlt]
    · simp [legacyMinValue, hp, hdp, staticMinLegacy, hmn]
  · intro d desc p mn mx hp hdp hmn hmx
    refine ⟨?_, ?_, ?_⟩
    · intro hlt
      simp [nextMaxValue, hp, hdp, staticMaxNext, hmn, hmx, hlt]
    · intro hlt
      simp [nextMaxValue, hp, hdp, staticMaxNext, hmn, hmx, hlt]
    · simp [legacyMaxValue, hp, hdp, staticMaxLegacy, hmx]
  · intro d desc p hp hdp hmn
    constructor
    · simp [nextMinValue, hp, hdp, staticMinNext, hmn]
    · simp [legacyMinValue, hp, hdp, staticMinLegacy, hmn]

/-- Witness for C4 amended, on `c4Data`: the degenerate static range
resolves to the fallback 5 in the econet_next resolver and to the static
0 in the top-level resolver. -/
theorem C4_range_precedence_witness :
    nextMinValue c4Data c4Desc = fallbackMin c4Desc.native_min_value ∧
    legacyMinValue c4Data c4Desc = 0 := by
  have h := C4_range_precedence.2.2.1 c4Data c4Desc
    { value := some 0, minv := some 0, maxv := some 0 } 0 0
    (by decide) rfl rfl rfl
  exact ⟨h.2.1 (by norm_num), h.2.2⟩

/-- **C9 counterexample**: a requested value above the resolved maximum is
not always written through: when it equals the cached current value the
method returns before any range check and no transport write is issued. -/
theorem C9_counterexample :
    nextMaxValue c9Data c9Desc < 50 ∧ nextSetNativeValue c9Data c9Desc 50 = none := by
  constructor
  · show (40 : ℚ) < 50
    norm_num
  · rfl

/-- **C9 amended**: range enforcement is asymmetric by design: every
request strictly below the resolved minimum is dropped before reaching
the transport; a request above the resolved maximum is written through
provided it differs from the cached current value (identical requests are
skipped before any range check) and is not also below the resolved
minimum.  Both number platforms behave alike over their own resolvers. -/
theorem C9_range_enforcement :
    (∀ (d : Data) (desc : NumberDesc) (v : ℚ),
      v < nextMinValue d desc → nextSetNativeValue d desc v = none) ∧
    (∀ (d : Data) (desc : NumberDesc) (v : ℚ),
      nextMaxValue d desc < v → ¬v < nextMinValue d desc →
      get_param_value d desc.param_id ≠ some v →
      nextSetNativeValue d desc v = some v) ∧
    (∀ (d : Data) (desc : NumberDesc) (v : ℚ),
      v < legacyMinValue d desc → legacySetNativeValue d desc v = none) ∧
    (∀ (d : Data) (desc : NumberDesc) (v : ℚ),
      legacyMaxValue d desc < v → ¬v < legacyMinValue d desc →
      get_param_value d desc.param_id ≠ some v →
      legacySetNativeValue d desc v = some v) := by
  refine ⟨?_, ?_, ?_, ?_⟩
  · intro d desc v hlt
    rw [nextSetNativeValue]
    by_cases h : get_param_value d desc.param_id = some v
    · rw [if_pos h]
    · rw [if_neg h, if_pos hlt]
  · intro d desc v hmax hmin hne
    rw [nextSetNativeValue, if_neg hne, if_neg hmin]
  · intro d desc v hlt
    rw [legacySetNativeValue]
    by_cases h : get_param_value d desc.param_id = some v
    · rw [if_pos h]
    · rw [if_neg h, if_pos hlt]
  · intro d desc v hmax hmin hne
    rw [legacySetNativeValue, if_neg hne, if_neg hmin]

/-- Witness for C9 amended, on `c9Data` (bounds 0..40, cached value 50):
a request of -1 is dropped, and a request of 45, above the maximum but
different from the cached value, is written through. -/
theorem C9_range_enforcement_witness :
    nextSetNativeValue c9Data c9Desc (-1) = none ∧
    nextSetNativeValue c9Data c9Desc 45 = some 45 :=
  ⟨C9_range_enforcement.1 c9Data c9Desc (-1) (by decide),
   C9_range_enforcement.2.1 c9Data c9Desc 45 (by decide) (by decide) (by decide)⟩

/-- **C2 counterexample**: with the circuit on (WorkState COMFORT) and the
settings bitmap having bit 20 clear (heating enabled) and bit 17 set
(cooling enabled), `hvac_mode` returns AUTO, not HEAT_COOL as the claim
states. -/
theorem C2_counterexample :
    _get_work_state c2Data c2Cfg ≠ 0 ∧
    pyBit (settingsValue { value := some 131072 }) 20 = 0 ∧
    pyBit (settingsValue { value := some 131072 }) 17 = 1 ∧
    hvac_mode c2Data c2Cfg = HVACMode.auto ∧
    hvac_mode c2Data c2Cfg ≠ HVACMode.heat_cool := by decide

/-- **C2 amended**: `hvac_mode` returns OFF when WorkState is OFF; when
the circuit is on it returns HEAT when the settings bitmap is absent, and
otherwise inspects the two enable bits (bit 20 clear means heating
enabled, bit 17 set means cooling enabled): both enabled gives AUTO (not
HEAT_COOL), only heating HEAT, only cooling COOL, and neither the
defensive default HEAT. -/
theorem C2_hvac_mode_cases (d : Data) (cfg : CircuitCfg) :
    (_get_work_state d cfg = 0 → hvac_mode d cfg = HVACMode.off) ∧
    (_get_work_state d cfg ≠ 0 → d cfg.settings_param = none →
      hvac_mode d cfg = HVACMode.heat) ∧
    (∀ p : Param, _get_work_state d cfg ≠ 0 → d cfg.settings_param = some p →
      (pyBit (settingsValue p) 20 = 0 → pyBit (settingsValue p) 17 = 1 →
        hvac_mode d cfg = HVACMode.auto) ∧
      (pyBit (settingsValue p) 20 = 0 → pyBit (settingsValue p) 17 ≠ 1 →
        hvac_mode d cfg = HVACMode.heat) ∧
      (pyBit (settingsValue p) 20 ≠ 0 → pyBit (settingsValue p) 17 = 1 →
        hvac_mode d cfg = HVACMode.cool) ∧
      (pyBit (settingsValue p) 20 ≠ 0 → pyBit (settingsValue p) 17 ≠ 1 →
        hvac_mode d cfg = HVACMode.heat)) := by
  refine ⟨?_, ?_, ?_⟩
  · intro h
    simp [hvac_mode, h]
  · intro h hs
    simp [hvac_mode, h, hs]
  · intro p h hs
    refine ⟨?_, ?_, ?_, ?_⟩ <;> intro h20 h17 <;> simp [hvac_mode, h, hs, h20, h17]

/-- Witness for C2 amended: the both-enabled case on the concrete
snapshot `c2Data` yields AUTO. -/
theorem C2_hvac_mode_cases_witness :
    hvac_mode c2Data c2Cfg = HVACMode.auto :=
  ((C2_hvac_mode_cases c2Data c2Cfg).2.2 { value := some 131072 }
    (by decide) (by decide)).1 (by decide) (by decide)

/-- **C3**: in AUTO (schedule) work state with eco 17.5, comfort 21.0 and
room setpoint 17.5, `preset_mode` reports SCHEDULE while the remembered
sub-preset becomes ECO, and `target_temperature` then returns 17.5; and
when the setpoint matches neither target within the strict 0.1 tolerance
the remembered sub-preset is left unchanged, with temperature reads
defaulting to the comfort target when nothing is remembered. -/
theorem C3_schedule_preset_detection :
    (∀ (d : Data) (cfg : CircuitCfg) (last : Option String) (pe pc pr : Param),
      _get_work_state d cfg = 3 →
      d cfg.eco_param = some pe → pe.value = some (35/2) →
      d cfg.comfort_param = some pc → pc.value = some 21 →
      d cfg.room_temp_setpoint_param = some pr → pr.value = some (35/2) →
      preset_mode d cfg last = (some "schedule", some "eco") ∧
      target_temperature d cfg last = some (35/2)) ∧
    (∀ (d : Data) (cfg : CircuitCfg) (last : Option String) (pe pc pr : Param)
      (eco comfort sp : ℚ),
      _get_work_state d cfg = 3 →
      d cfg.eco_param = some pe → pe.value = some eco →
      d cfg.comfort_param = some pc → pc.value = some comfort →
      d cfg.room_temp_setpoint_param = some pr → pr.value = some sp →
      ¬|sp - eco| < 1/10 → ¬|sp - comfort| < 1/10 →
      (preset_mode d cfg last).2 = last ∧
      (last = none → target_temperature d cfg last = pc.value)) := by
  constructor
  · intro d cfg last pe pc pr hws he hev hc hcv hr hrv
    have hdet : _detect_active_preset d cfg last = (some "eco", some "eco") := by
      simp only [_detect_active_preset, hr, hrv, he, hev, hc, hcv]
      norm_num
    have hpm : preset_mode d cfg last = (some "schedule", some "eco") := by
      simp [preset_mode, hws, hdet]
    refine ⟨hpm, ?_⟩
    simp [target_temperature, hpm, he, hev]
  · intro d cfg last pe pc pr eco comfort sp hws he hev hc hcv hr hrv hne hnc
    have hdet : (_detect_active_preset d cfg last).2 = last := by
      simp only [_detect_active_preset, hr, hrv, he, hev, hc, hcv]
      rw [if_neg hne, if_neg hnc]
    have hpm : preset_mode d cfg last = (some "schedule", last) := by
      simp [preset_mode, hws, hdet]
    refine ⟨by simp [hpm], ?_⟩
    intro hlast
    subst hlast
    simp [target_temperature, hpm, hc]

/-- Witness for C3: the scenario on the concrete snapshot `c3Data` with
no remembered preset. -/
theorem C3_schedule_preset_detection_witness :
    preset_mode c3Data c2Cfg none = (some "schedule", some "eco") ∧
    target_temperature c3Data c2Cfg none = some (35/2) :=
  C3_schedule_preset_detection.1 c3Data c2Cfg none
    { value := some (35/2) } { value := some 21 } { value := some (35/2) }
    (by decide) rfl rfl rfl rfl rfl rfl
